import Mathlib

/-!
Verification of the HTMLtoUrl service (`src/app.py`) against its
natural-language specification.

The Python code is shallowly embedded: Python `str` values that the code
manipulates character-by-character (filenames, ids, HTML bodies) are
`List Char`; byte strings are `List Nat`; the on-disk directory
`html_files/` is an association list from filename to file info; HTTP
responses are a record of status, body and the headers the handlers set
explicitly.  External collaborators (the `hashlib.md5` fingerprint, the
`uuid.uuid4` random source, the Gotenberg renderer) are parameters of the
embedded functions, exactly as they are external to the repository's code.
-/

namespace HtmlToUrl

/-- Python `str`, as the code manipulates it (sequence of unicode chars). -/
abbrev Str := List Char

/-- Python `bytes`: a sequence of byte values. -/
abbrev Bytes := List Nat

/-- Python `s.endswith(suffix)`. -/
def endsWith (s suffix : Str) : Bool := suffix.isSuffixOf s

/-- Python `c in s` for a single character. -/
def containsChar (s : Str) (c : Char) : Bool := s.any (fun x => x == c)

/-- One stored file: its bytes and its filesystem creation time
(`os.path.getctime`), in seconds. -/
structure FileInfo where
  content : Bytes
  ctime : Nat
deriving DecidableEq

/-- The `html_files/` directory: filename → file info. -/
abbrev Store := List (Str × FileInfo)

/-- Look a filename up in the directory. -/
def Store.lookupName : Store → Str → Option FileInfo
  | [], _ => none
  | (k, v) :: rest, name => if k = name then some v else Store.lookupName rest name

/-- Python `os.path.exists(os.path.join(HTML_DIR, name))`. -/
def Store.existsName (s : Store) (name : Str) : Bool := (s.lookupName name).isSome

/-- Remove every entry with the given name. -/
def Store.eraseName (s : Store) (name : Str) : Store :=
  s.filter (fun p => p.1 ≠ name)

/-- Python `open(path, "wb").write(bytes)`: (over)write one file. -/
def Store.put (s : Store) (name : Str) (fi : FileInfo) : Store :=
  (name, fi) :: s.eraseName name

/-- Environment-derived configuration constants of `app.py`. -/
structure Config where
  MAX_FILE_AGE : Nat
  CLEANUP_INTERVAL : Nat
  MAX_CONTENT_LENGTH : Nat
  CSP_POLICY : String
  PDF_ENABLED : Bool
  BASE_URL : Str

/-- A response body: empty (`''`), raw file bytes, or a JSON error object. -/
inductive Body where
  | empty : Body
  | file : Bytes → Body
  | json : String → Body
deriving DecidableEq

/-- An HTTP response as the handlers build it: status, body, and the
headers the application code sets explicitly. -/
structure Response where
  status : Nat
  body : Body
  headers : List (String × String)
deriving DecidableEq

/-- `response.headers[name]`. -/
def lookupHeader : List (String × String) → String → Option String
  | [], _ => none
  | (k, v) :: rest, name => if k = name then some v else lookupHeader rest name

/-- `response.headers[name]` on a whole response. -/
def Response.header (r : Response) (name : String) : Option String :=
  lookupHeader r.headers name

/-- The filename validation of `serve_file` (`app.py` lines 347-350): not
ending in one of the two accepted extensions, or containing a path
separator anywhere, makes the name invalid. -/
def invalid_filename (filename : Str) : Bool :=
  (!(endsWith filename ".html".toList) && !(endsWith filename ".pdf".toList))
    || containsChar filename '/' || containsChar filename '\\'

/-- The `serve_file` handler (`GET /files/<filename>`), `app.py` lines
346-389.  `md5hex` stands for `hashlib.md5(·).hexdigest()` (external
library); `ifNoneMatch` is `request.headers.get('If-None-Match')`. -/
def serve_file (cfg : Config) (md5hex : Bytes → String) (store : Store)
    (ifNoneMatch : Option String) (filename : Str) : Response :=
  let is_html := endsWith filename ".html".toList
  let is_pdf := endsWith filename ".pdf".toList
  if invalid_filename filename then
    { status := 400, body := .json "Ungültiger Dateiname", headers := [] }
  else
    match store.lookupName filename with
    | none => { status := 404, body := .json "Datei nicht gefunden", headers := [] }
    | some fi =>
      let etag := md5hex fi.content
      if ifNoneMatch = some etag then
        { status := 304, body := .empty, headers := [] }
      else
        let h0 : List (String × String) :=
          [("ETag", etag),
           ("Cache-Control", "public, max-age=3600"),
           ("X-Content-Type-Options", "nosniff")]
        let h1 := if is_html then
            h0 ++ [("Content-Security-Policy", cfg.CSP_POLICY),
                   ("X-Frame-Options", "SAMEORIGIN")]
          else h0
        let h2 := if is_pdf then
            h1 ++ [("Content-Disposition",
                    "inline; filename=\"" ++ filename.asString ++ "\"")]
          else h1
        { status := 200, body := .file fi.content, headers := h2 }

/-- The global `after_request` hook (`app.py` lines 112-123): adds the
correlation id and the timing header to every response. -/
def after_request (requestId : String) (responseTime : String) (r : Response) : Response :=
  { r with headers := r.headers ++
      [("X-Request-ID", requestId), ("X-Response-Time", responseTime)] }

/-- One lowercase hexadecimal digit, as Python formats it. -/
def toHexDigit (n : Nat) : Char :=
  if n < 10 then Char.ofNat (48 + n) else Char.ofNat (87 + n)

/-- `uuid.uuid4().hex` (external random source): the 32-character lowercase
hex rendering of a 128-bit value `n` drawn from `uuid4`. -/
def uuidHex (n : Nat) : Str :=
  (List.range 32).map (fun i => toHexDigit (n / 16 ^ (31 - i) % 16))

/-- `uuid.uuid4().hex[:12]`: one candidate file id from the `k`-th draw of
the random stream `rand`. -/
def candidateId (rand : Nat → Nat) (k : Nat) : Str :=
  (uuidHex (rand k)).take 12

/-- The id-retry loop of `upload_html` (`app.py` lines 274-287): generate a
candidate, and `while os.path.exists(html_filepath)` regenerate.  The
Python loop is unbounded; `fuel` bounds the embedding, `none` meaning the
loop did not finish within `fuel` draws.  Note the loop checks only the
candidate's `.html` path for existence. -/
def pickId (store : Store) (rand : Nat → Nat) : Nat → Nat → Option Str
  | 0, _ => none
  | fuel + 1, k =>
    let file_id := candidateId rand k
    if store.existsName (file_id ++ ".html".toList) then
      pickId store rand fuel (k + 1)
    else
      some file_id

/-- UTF-8 encoding of one code point. -/
def utf8EncodeChar (c : Char) : Bytes :=
  let n := c.toNat
  if n < 128 then [n]
  else if n < 2048 then [192 + n / 64, 128 + n % 64]
  else if n < 65536 then [224 + n / 4096, 128 + n / 64 % 64, 128 + n % 64]
  else [240 + n / 262144, 128 + n / 4096 % 64, 128 + n / 64 % 64, 128 + n % 64]

/-- Python `s.encode('utf-8')`. -/
def utf8Encode (s : Str) : Bytes := s.flatMap utf8EncodeChar

/-- The JSON object a successful upload returns (`app.py` lines 309-319).
The three pdf fields are `none` when `PDF_ENABLED` is false (keys absent)
or, for the urls, when the render failed (JSON null). -/
structure UploadData where
  success : Bool
  id : Str
  filename : Str
  url : Str
  pdf_filename : Option Str
  pdf_url : Option Str
  pdf_generated : Option Bool
deriving DecidableEq

/-- Outcome of `upload_html`: a JSON error with a status, or the 200
payload. -/
inductive UploadOutcome where
  | err : Nat → String → UploadOutcome
  | ok : UploadData → UploadOutcome
deriving DecidableEq

/-- HTTP status of an upload outcome (`jsonify` defaults to 200). -/
def UploadOutcome.status : UploadOutcome → Nat
  | .err s _ => s
  | .ok _ => 200

/-- The `upload_html` handler (`POST /upload`), `app.py` lines 257-321.
`contentLength` is `request.content_length`; `body` is the decoded
`request.get_data(as_text=True)`; `render` stands for the Gotenberg
collaborator (`generate_pdf_with_gotenberg`), returning the PDF bytes on
success; `rand`/`fuel` drive the id loop; `now` is the write time the
filesystem stamps.  Returns the outcome and the updated store, or `none`
when the id loop did not terminate within `fuel`. -/
def upload_html (cfg : Config) (rand : Nat → Nat) (fuel : Nat)
    (render : Str → Option Bytes) (contentLength : Option Nat) (body : Str)
    (now : Nat) (store : Store) : Option (UploadOutcome × Store) :=
  if (contentLength.getD 0) > cfg.MAX_CONTENT_LENGTH then
    some (.err 413 "Datei zu groß", store)
  else if body = [] then
    some (.err 400 "Kein HTML-Content im Request Body gefunden", store)
  else if (utf8Encode body).length > cfg.MAX_CONTENT_LENGTH then
    some (.err 413 "Datei zu groß", store)
  else
    match pickId store rand fuel 0 with
    | none => none
    | some file_id =>
      let html_filename := file_id ++ ".html".toList
      let pdf_filename := file_id ++ ".pdf".toList
      let store1 := store.put html_filename ⟨utf8Encode body, now⟩
      let rendered := if cfg.PDF_ENABLED then render body else none
      let store2 := match rendered with
        | some pdfBytes => store1.put pdf_filename ⟨pdfBytes, now⟩
        | none => store1
      let pdf_generated := rendered.isSome
      some (.ok {
        success := true
        id := file_id
        filename := html_filename
        url := cfg.BASE_URL ++ "/files/".toList ++ html_filename
        pdf_filename := if cfg.PDF_ENABLED then
            (if pdf_generated then some pdf_filename else none) else none
        pdf_url := if cfg.PDF_ENABLED then
            (if pdf_generated then
              some (cfg.BASE_URL ++ "/files/".toList ++ pdf_filename) else none)
          else none
        pdf_generated := if cfg.PDF_ENABLED then some pdf_generated else none
      }, store2)

/-- File age as the sweeper and `/stats` compute it:
`current_time - os.path.getctime(filepath)`. -/
def fileAge (now : Nat) (fi : FileInfo) : Int := (now : Int) - (fi.ctime : Int)

/-- One pass of the retention sweep, the body of the `while True` loop of
`cleanup_old_files` (`app.py` lines 179-196), as a transform on the
directory.  `deleteOk name` says whether `os.remove` succeeds on `name`;
an `os.remove` failure raises, and the `try/except` wrapping the whole
`for` loop catches it, so the entries not yet visited in that pass are
left untouched. -/
def cleanup_once (cfg : Config) (now : Nat) (deleteOk : Str → Bool) :
    Store → Store
  | [] => []
  | (name, fi) :: rest =>
    if fileAge now fi > (cfg.MAX_FILE_AGE : Int) then
      if deleteOk name then cleanup_once cfg now deleteOk rest
      else (name, fi) :: rest
    else
      (name, fi) :: cleanup_once cfg now deleteOk rest

/-- Aggregates of the `/stats` handler. -/
structure StatsData where
  total_files : Nat
  html_files : Nat
  pdf_files : Nat
  total_size : Nat
  files : List (Str × String × Nat)
deriving DecidableEq

/-- Per-file `type` tag of `/stats`. -/
def fileTypeTag (name : Str) : String :=
  if endsWith name ".html".toList then "html"
  else if endsWith name ".pdf".toList then "pdf"
  else "other"

/-- The accumulation loop of the `stats` handler (`app.py` lines 459-485):
walk the directory accumulating the per-file entries (filename, type,
size), the size total, and the html and pdf counts.  The reported MB/KB
figures are roundings of these byte counts. -/
def statsLoop : Store → List (Str × String × Nat) × Nat × Nat × Nat →
    List (Str × String × Nat) × Nat × Nat × Nat
  | [], acc => acc
  | (name, fi) :: rest, (files, total_size, html_count, pdf_count) =>
    let t := fileTypeTag name
    statsLoop rest
      (files ++ [(name, t, fi.content.length)],
       total_size + fi.content.length,
       html_count + (if t = "html" then 1 else 0),
       pdf_count + (if t = "pdf" then 1 else 0))

/-- The `/stats` handler's response (`app.py` lines 487-497):
`total_files` is `len(files)` computed after the loop. -/
def stats (store : Store) : StatsData :=
  let acc := statsLoop store ([], 0, 0, 0)
  { total_files := acc.1.length
    html_files := acc.2.2.1
    pdf_files := acc.2.2.2
    total_size := acc.2.1
    files := acc.1 }

/-! ### Helper lemmas about the embedded operations -/

lemma take_reverse_of_endsWith {f suf : Str} (h : endsWith f suf = true) :
    f.reverse.take suf.length = suf.reverse := by
  rcases List.isSuffixOf_iff_suffix.mp h with ⟨t, rfl⟩
  rw [List.reverse_append, ← List.length_reverse suf]
  exact List.take_left suf.reverse t.reverse

lemma endsWith_agree {f s₁ s₂ : Str} (h₁ : endsWith f s₁ = true)
    (h₂ : endsWith f s₂ = true) (hle : s₁.length ≤ s₂.length) :
    s₂.reverse.take s₁.length = s₁.reverse := by
  have t₁ := take_reverse_of_endsWith h₁
  have t₂ := take_reverse_of_endsWith h₂
  have h3 : (f.reverse.take s₂.length).take s₁.length = f.reverse.take s₁.length := by
    rw [List.take_take, Nat.min_eq_left hle]
  rw [t₂, t₁] at h3
  exact h3

lemma not_endsWith_html_and_pdf (f : Str) :
    ¬(endsWith f ".html".toList = true ∧ endsWith f ".pdf".toList = true) := by
  rintro ⟨h1, h2⟩
  have h3 := endsWith_agree h2 h1 (by decide)
  exact absurd h3 (by decide)

lemma endsWith_append (a suf : Str) : endsWith (a ++ suf) suf = true := by
  simp [endsWith, List.suffix_append]

lemma containsChar_append (a b : Str) (c : Char) :
    containsChar (a ++ b) c = (containsChar a c || containsChar b c) := by
  simp [containsChar, List.any_append]

lemma containsChar_eq_false {s : Str} {c : Char}
    (h : ∀ x ∈ s, x ≠ c) : containsChar s c = false := by
  simp only [containsChar, List.any_eq_false, beq_iff_eq]
  exact h

lemma toHexDigit_mem (m : Nat) :
    toHexDigit (m % 16) ∈ "0123456789abcdef".toList := by
  have h : m % 16 < 16 := Nat.mod_lt _ (by norm_num)
  generalize hk : m % 16 = k at h
  interval_cases k <;> decide

lemma length_candidateId (rand : Nat → Nat) (k : Nat) :
    (candidateId rand k).length = 12 := by
  simp [candidateId, uuidHex]

lemma mem_candidateId {rand : Nat → Nat} {k : Nat} {c : Char}
    (hc : c ∈ candidateId rand k) : c ∈ "0123456789abcdef".toList := by
  have h1 : c ∈ uuidHex (rand k) := List.take_subset _ _ hc
  simp only [uuidHex, List.mem_map, List.mem_range] at h1
  obtain ⟨i, _, rfl⟩ := h1
  exact toHexDigit_mem _

lemma lookupName_eraseName (s : Store) (name name' : Str) (h : name' ≠ name) :
    (s.eraseName name).lookupName name' = s.lookupName name' := by
  induction s with
  | nil => rfl
  | cons p rest ih =>
    obtain ⟨k, v⟩ := p
    by_cases hk : k = name
    · subst hk
      have hkn : ¬(k = name') := fun e => h e.symm
      simpa [Store.eraseName, List.filter_cons, Store.lookupName, hkn] using ih
    · by_cases hk' : k = name'
      · simp [Store.eraseName, List.filter_cons, hk, Store.lookupName, hk', h]
      · simp only [Store.eraseName, List.filter_cons, hk, Store.lookupName,
          decide_not, if_neg hk']
        simpa [Store.eraseName, hk, hk'] using ih

lemma lookupName_put_self (s : Store) (name : Str) (fi : FileInfo) :
    (s.put name fi).lookupName name = some fi := by
  simp [Store.put, Store.lookupName]

lemma lookupName_put_ne (s : Store) (name name' : Str) (fi : FileInfo)
    (h : name' ≠ name) :
    (s.put name fi).lookupName name' = s.lookupName name' := by
  have : ¬(name = name') := fun e => h e.symm
  simp [Store.put, Store.lookupName, this, lookupName_eraseName s name name' h]

lemma append_dotPdf_ne_dotHtml (fid : Str) :
    fid ++ ".pdf".toList ≠ fid ++ ".html".toList := by
  intro h
  have hlen := congrArg List.length h
  simp [List.length_append] at hlen

lemma pickId_spec {store : Store} {rand : Nat → Nat} {fuel k : Nat} {fid : Str}
    (h : pickId store rand fuel k = some fid) :
    (∃ j, fid = candidateId rand j) ∧
      store.existsName (fid ++ ".html".toList) = false := by
  induction fuel generalizing k with
  | zero => simp [pickId] at h
  | succ n ih =>
    rw [pickId] at h
    by_cases hex : store.existsName (candidateId rand k ++ ".html".toList) = true
    · rw [if_pos hex] at h
      exact ih h
    · rw [if_neg hex] at h
      obtain rfl : candidateId rand k = fid := by
        simpa using h
      exact ⟨⟨k, rfl⟩, by simpa using hex⟩

lemma candidateId_no_sep {rand : Nat → Nat} {k : Nat} {c : Char}
    (hmem : c ∈ "0123456789abcdef".toList → False) :
    containsChar (candidateId rand k) c = false := by
  refine containsChar_eq_false ?_
  intro x hx hxc
  subst hxc
  exact hmem (mem_candidateId hx)

lemma invalid_filename_id_ext {fid ext : Str}
    (hhex : ∀ c ∈ fid, c ∈ "0123456789abcdef".toList)
    (hext : (!(endsWith (fid ++ ext) ".html".toList)
        && !(endsWith (fid ++ ext) ".pdf".toList)) = false)
    (hs : containsChar ext '/' = false) (hb : containsChar ext '\\' = false) :
    invalid_filename (fid ++ ext) = false := by
  unfold invalid_filename
  have ha : containsChar fid '/' = false := by
    refine containsChar_eq_false ?_
    intro x hx hxc
    subst hxc
    exact absurd (hhex _ hx) (by decide)
  have hab : containsChar fid '\\' = false := by
    refine containsChar_eq_false ?_
    intro x hx hxc
    subst hxc
    exact absurd (hhex _ hx) (by decide)
  rw [containsChar_append, containsChar_append, ha, hab, hs, hb, hext]
  rfl

/-! ### Claim theorems -/

/-- C1: a requested filename that does not end in `.html` or `.pdf`, or that
contains `/` or `\` anywhere, makes `serve_file` return 400 without any
filesystem access (the result is the same for every store and every
conditional header, since validation runs strictly before the lookup), and
a well-formed name that maps to no stored file returns 404. -/
theorem serve_file_validates_before_fs (cfg : Config) (md5hex : Bytes → String)
    (filename : Str) :
    (invalid_filename filename = true →
      ∀ store store' inm inm',
        serve_file cfg md5hex store inm filename
            = serve_file cfg md5hex store' inm' filename ∧
          (serve_file cfg md5hex store inm filename).status = 400) ∧
    (invalid_filename filename = false →
      ∀ store inm, Store.lookupName store filename = none →
        (serve_file cfg md5hex store inm filename).status = 404) := by
  constructor
  · intro h store store' inm inm'
    constructor <;> simp [serve_file, h]
  · intro h store inm hlook
    simp [serve_file, h, hlook]

/-- Witness for C1 at concrete inputs: `evil.txt` is rejected with 400 on a
non-empty store, and the well-formed `nope.html` yields 404 on the empty
store. -/
theorem serve_file_validates_before_fs_witness :
    invalid_filename "evil.txt".toList = true ∧
    (serve_file ⟨86400, 600, 1048576, "csp", true, []⟩ (fun _ => "h")
        [("a.html".toList, ⟨[1], 0⟩)] none "evil.txt".toList).status = 400 ∧
    invalid_filename "nope.html".toList = false ∧
    (serve_file ⟨86400, 600, 1048576, "csp", true, []⟩ (fun _ => "h")
        [] none "nope.html".toList).status = 404 := by
  refine ⟨by decide, ?_, by decide, ?_⟩
  · exact ((serve_file_validates_before_fs _ _ _).1 (by decide)
      [("a.html".toList, ⟨[1], 0⟩)] [] none none).2
  · exact (serve_file_validates_before_fs _ _ _).2 (by decide) [] none rfl

/-- C5: the ETag served for a stored artifact is the fingerprint of its
exact bytes (`md5hex fi.content`, independent of store and name), so two
fetches of the same unchanged artifact return identical ETags; and a fetch
carrying `If-None-Match` equal to the current fingerprint yields a 304 with
an empty body. -/
theorem serve_file_etag_conditional (cfg : Config) (md5hex : Bytes → String) :
    (∀ store filename fi, invalid_filename filename = false →
      Store.lookupName store filename = some fi →
      (serve_file cfg md5hex store none filename).header "ETag"
        = some (md5hex fi.content)) ∧
    (∀ store filename fi, invalid_filename filename = false →
      Store.lookupName store filename = some fi →
      serve_file cfg md5hex store (some (md5hex fi.content)) filename
        = { status := 304, body := .empty, headers := [] }) := by
  constructor
  · intro store filename fi hval hlook
    simp only [serve_file, hval, hlook, Response.header]
    simp only [Bool.false_eq_true, if_false, reduceCtorEq, if_neg, ite_false]
    split <;> split <;> simp [lookupHeader]
  · intro store filename fi hval hlook
    simp [serve_file, hval, hlook]

/-- Witness for C5: on a one-file store the ETag equals the fingerprint of
the stored bytes, and presenting it back yields the bare 304. -/
theorem serve_file_etag_conditional_witness :
    invalid_filename "a.html".toList = false ∧
    Store.lookupName [("a.html".toList, (⟨[1], 0⟩ : FileInfo))] "a.html".toList
        = some ⟨[1], 0⟩ ∧
    (serve_file ⟨86400, 600, 1048576, "csp", true, []⟩ (fun _ => "h")
        [("a.html".toList, ⟨[1], 0⟩)] none "a.html".toList).header "ETag"
      = some "h" ∧
    serve_file ⟨86400, 600, 1048576, "csp", true, []⟩ (fun _ => "h")
        [("a.html".toList, ⟨[1], 0⟩)] (some "h") "a.html".toList
      = { status := 304, body := .empty, headers := [] } := by
  refine ⟨by decide, rfl, ?_, ?_⟩
  · exact (serve_file_etag_conditional _ _).1 _ _ ⟨[1], 0⟩ (by decide) rfl
  · exact (serve_file_etag_conditional _ _).2 _ _ ⟨[1], 0⟩ (by decide) rfl

/-- C10: when `serve_file` takes the not-modified branch it returns
`('', 304)` before setting any header, so after the global `after_request`
hook the 304 response carries exactly the correlation and timing headers
and none of the caching or hardening ones (framework-level defaults are
outside this model). -/
theorem serve_file_304_only_hook_headers (cfg : Config)
    (md5hex : Bytes → String) (store : Store) (filename : Str) (fi : FileInfo)
    (rid t : String)
    (hval : invalid_filename filename = false)
    (hlook : Store.lookupName store filename = some fi) :
    after_request rid t
        (serve_file cfg md5hex store (some (md5hex fi.content)) filename)
      = { status := 304, body := .empty,
          headers := [("X-Request-ID", rid), ("X-Response-Time", t)] } := by
  simp [serve_file, hval, hlook, after_request]

/-- Witness for C10 at a concrete store, fingerprint and hook values. -/
theorem serve_file_304_only_hook_headers_witness :
    invalid_filename "a.html".toList = false ∧
    Store.lookupName [("a.html".toList, (⟨[1], 0⟩ : FileInfo))] "a.html".toList
        = some ⟨[1], 0⟩ ∧
    after_request "rid" "1ms"
        (serve_file ⟨86400, 600, 1048576, "csp", true, []⟩ (fun _ => "h")
          [("a.html".toList, ⟨[1], 0⟩)] (some "h") "a.html".toList)
      = { status := 304, body := .empty,
          headers := [("X-Request-ID", "rid"), ("X-Response-Time", "1ms")] } := by
  refine ⟨by decide, rfl, ?_⟩
  exact serve_file_304_only_hook_headers _ _ _ _ ⟨[1], 0⟩ _ _ (by decide) rfl

/-- C2: a 200 fetch of a stored artifact (well-formed name, found in the
store, no matching conditional header) carries the content fingerprint as
ETag, `Cache-Control: public, max-age=3600` and
`X-Content-Type-Options: nosniff`; an `.html` name additionally gets the
content-security-policy and the frame-denial header and no
Content-Disposition, while a `.pdf` name gets neither CSP nor frame header
and an inline Content-Disposition naming the requested file. -/
theorem serve_file_200_headers (cfg : Config) (md5hex : Bytes → String)
    (store : Store) (inm : Option String) (filename : Str) (fi : FileInfo)
    (hval : invalid_filename filename = false)
    (hlook : Store.lookupName store filename = some fi)
    (hinm : inm ≠ some (md5hex fi.content)) :
    (serve_file cfg md5hex store inm filename).status = 200 ∧
    (serve_file cfg md5hex store inm filename).header "ETag"
        = some (md5hex fi.content) ∧
    (serve_file cfg md5hex store inm filename).header "Cache-Control"
        = some "public, max-age=3600" ∧
    (serve_file cfg md5hex store inm filename).header "X-Content-Type-Options"
        = some "nosniff" ∧
    (endsWith filename ".html".toList = true →
      (serve_file cfg md5hex store inm filename).header "Content-Security-Policy"
          = some cfg.CSP_POLICY ∧
      (serve_file cfg md5hex store inm filename).header "X-Frame-Options"
          = some "SAMEORIGIN" ∧
      (serve_file cfg md5hex store inm filename).header "Content-Disposition"
          = none) ∧
    (endsWith filename ".pdf".toList = true →
      (serve_file cfg md5hex store inm filename).header "Content-Security-Policy"
          = none ∧
      (serve_file cfg md5hex store inm filename).header "X-Frame-Options"
          = none ∧
      (serve_file cfg md5hex store inm filename).header "Content-Disposition"
          = some ("inline; filename=\"" ++ filename.asString ++ "\"")) := by
  have hnp := not_endsWith_html_and_pdf filename
  cases hh : endsWith filename ".html".toList <;>
    cases hp : endsWith filename ".pdf".toList
  · exfalso
    unfold invalid_filename at hval
    rw [hh, hp] at hval
    simp at hval
  · simp only [serve_file, hval, hlook, hh, hp, Bool.false_eq_true, if_false,
      if_neg hinm, ite_true, ite_false, Response.header]
    simp [lookupHeader]
  · simp only [serve_file, hval, hlook, hh, hp, Bool.false_eq_true, if_false,
      if_neg hinm, ite_true, ite_false, Response.header]
    simp [lookupHeader]
  · exact absurd ⟨hh, hp⟩ hnp

/-- Witness for C2: one html fetch and one pdf fetch on a concrete
two-file store, with the fingerprint function `fun _ => "h"`. -/
theorem serve_file_200_headers_witness :
    (invalid_filename "a.html".toList = false ∧
      Store.lookupName [("a.html".toList, (⟨[1], 0⟩ : FileInfo))] "a.html".toList
          = some ⟨[1], 0⟩ ∧
      (none : Option String) ≠ some "h" ∧
      (serve_file ⟨86400, 600, 1048576, "csp", true, []⟩ (fun _ => "h")
          [("a.html".toList, ⟨[1], 0⟩)] none "a.html".toList).header
          "Content-Security-Policy" = some "csp") ∧
    (invalid_filename "b.pdf".toList = false ∧
      Store.lookupName [("b.pdf".toList, (⟨[2], 0⟩ : FileInfo))] "b.pdf".toList
          = some ⟨[2], 0⟩ ∧
      (serve_file ⟨86400, 600, 1048576, "csp", true, []⟩ (fun _ => "h")
          [("b.pdf".toList, ⟨[2], 0⟩)] none "b.pdf".toList).header
          "Content-Disposition"
        = some ("inline; filename=\"" ++ ("b.pdf".toList).asString ++ "\"")) := by
  constructor
  · refine ⟨by decide, rfl, by simp, ?_⟩
    exact ((serve_file_200_headers ⟨86400, 600, 1048576, "csp", true, []⟩
      (fun _ => "h") [("a.html".toList, ⟨[1], 0⟩)] none "a.html".toList
      ⟨[1], 0⟩ (by decide) rfl (by simp)).2.2.2.2.1 (by decide)).1
  · refine ⟨by decide, rfl, ?_⟩
    exact ((serve_file_200_headers ⟨86400, 600, 1048576, "csp", true, []⟩
      (fun _ => "h") [("b.pdf".toList, ⟨[2], 0⟩)] none "b.pdf".toList
      ⟨[2], 0⟩ (by decide) rfl (by simp)).2.2.2.2.2 (by decide)).2.2

/-- C4 counterexample: the retry loop checks only the candidate's `.html`
path, so on a store holding only `000000000000.pdf` the draw
`000000000000` is accepted although it maps to an existing PDF artifact —
refuting "the id finally chosen maps to no existing HTML artifact and no
existing PDF artifact". -/
theorem pickId_pdf_collision :
    pickId [("000000000000.pdf".toList, ⟨[], 0⟩)] (fun _ => 0) 1 0
        = some "000000000000".toList ∧
    Store.existsName [("000000000000.pdf".toList, ⟨[], 0⟩)]
        ("000000000000".toList ++ ".pdf".toList) = true := by
  constructor
  · decide
  · decide

/-- C4 (amended): every id an upload chooses is a 12-character lowercase
hexadecimal token, and the retry loop guarantees it maps to no existing
HTML artifact at the moment of the check — the loop does not check the
PDF artifact of the same id. -/
theorem pickId_fresh_html {store : Store} {rand : Nat → Nat} {fuel k : Nat}
    {fid : Str} (h : pickId store rand fuel k = some fid) :
    fid.length = 12 ∧
    (∀ c ∈ fid, c ∈ "0123456789abcdef".toList) ∧
    store.existsName (fid ++ ".html".toList) = false := by
  obtain ⟨⟨j, rfl⟩, hfree⟩ := pickId_spec h
  exact ⟨length_candidateId _ _, fun c hc => mem_candidateId hc, hfree⟩

/-- Witness for the amended C4 on the empty store and the zero draw. -/
theorem pickId_fresh_html_witness :
    pickId ([] : Store) (fun _ => 0) 1 0 = some "000000000000".toList ∧
    "000000000000".toList.length = 12 ∧
    Store.existsName ([] : Store)
        ("000000000000".toList ++ ".html".toList) = false := by
  have h := @pickId_fresh_html [] (fun _ => 0) 1 0 ("000000000000".toList)
    (by decide)
  exact ⟨by decide, h.1, h.2.2⟩

/-- C6: on an error-free pass (every delete succeeds) the sweep keeps an
enumerated file iff its age `now - ctime` does not exceed
`MAX_FILE_AGE`: every strictly older file is absent afterwards, every
file at or below the TTL survives. -/
theorem cleanup_once_exact (cfg : Config) (now : Nat) (deleteOk : Str → Bool)
    (store : Store) (hok : ∀ n, deleteOk n = true) (name : Str) (fi : FileInfo) :
    (name, fi) ∈ cleanup_once cfg now deleteOk store ↔
      ((name, fi) ∈ store ∧ fileAge now fi ≤ (cfg.MAX_FILE_AGE : Int)) := by
  induction store with
  | nil => simp [cleanup_once]
  | cons p rest ih =>
    obtain ⟨n, f⟩ := p
    rw [cleanup_once]
    by_cases hage : fileAge now f > (cfg.MAX_FILE_AGE : Int)
    · rw [if_pos hage, hok n, if_pos rfl, ih]
      simp only [List.mem_cons]
      constructor
      · rintro ⟨h1, h2⟩
        exact ⟨Or.inr h1, h2⟩
      · rintro ⟨h1 | h1, h2⟩
        · obtain ⟨rfl, rfl⟩ := Prod.mk.injEq .. ▸ h1
          exact absurd hage (not_lt_of_le h2)
        · exact ⟨h1, h2⟩
    · rw [if_neg hage]
      simp only [List.mem_cons, ih]
      constructor
      · rintro (h1 | ⟨h1, h2⟩)
        · obtain ⟨rfl, rfl⟩ := Prod.mk.injEq .. ▸ h1
          exact ⟨Or.inl rfl, le_of_not_lt hage⟩
        · exact ⟨Or.inr h1, h2⟩
      · rintro ⟨h1 | h1, h2⟩
        · exact Or.inl h1
        · exact Or.inr ⟨h1, h2⟩

/-- Witness for C6: with every delete succeeding, the expired `a.html`
(age 100000) is gone and the fresh `b.html` (age 1) survives. -/
theorem cleanup_once_exact_witness :
    (("a.html".toList, (⟨[], 0⟩ : FileInfo)) ∉
      cleanup_once ⟨86400, 600, 1048576, "csp", true, []⟩ 100000 (fun _ => true)
        [("a.html".toList, ⟨[], 0⟩), ("b.html".toList, ⟨[], 99999⟩)]) ∧
    (("b.html".toList, (⟨[], 99999⟩ : FileInfo)) ∈
      cleanup_once ⟨86400, 600, 1048576, "csp", true, []⟩ 100000 (fun _ => true)
        [("a.html".toList, ⟨[], 0⟩), ("b.html".toList, ⟨[], 99999⟩)]) := by
  refine ⟨?_, ?_⟩
  · intro hmem
    have h := (cleanup_once_exact ⟨86400, 600, 1048576, "csp", true, []⟩ 100000
      (fun _ => true) [("a.html".toList, ⟨[], 0⟩), ("b.html".toList, ⟨[], 99999⟩)]
      (fun _ => rfl) "a.html".toList ⟨[], 0⟩).mp hmem
    exact absurd h.2 (by decide)
  · exact (cleanup_once_exact ⟨86400, 600, 1048576, "csp", true, []⟩ 100000
      (fun _ => true) [("a.html".toList, ⟨[], 0⟩), ("b.html".toList, ⟨[], 99999⟩)]
      (fun _ => rfl) "b.html".toList ⟨[], 99999⟩).mpr ⟨by decide, by decide⟩

/-- C7 counterexample: the `try/except` of `cleanup_old_files` wraps the
whole `for` loop, so when deleting the expired `a.html` fails, the equally
expired `b.html` — whose delete would have succeeded — is not examined in
that pass and survives: a single failing file does abort the remainder of
the sweep pass. -/
theorem cleanup_once_abort :
    fileAge 100000 ⟨[], 0⟩ > ((86400 : Nat) : Int) ∧
    cleanup_once ⟨86400, 600, 1048576, "csp", true, []⟩ 100000
        (fun n => decide (n ≠ "a.html".toList))
        [("a.html".toList, ⟨[], 0⟩), ("b.html".toList, ⟨[], 0⟩)]
      = [("a.html".toList, ⟨[], 0⟩), ("b.html".toList, ⟨[], 0⟩)] := by
  constructor
  · decide
  · decide

/-- C7 (amended): a delete failure is caught and logged at the pass level,
so it never crashes the process, but it aborts the remainder of that sweep
pass.  A faulty pass deletes only files that were present and expired, and
the next error-free pass of the still-running sweep loop produces exactly
the state an error-free sweep of the original store would have. -/
theorem cleanup_once_error_local (cfg : Config) (now : Nat)
    (deleteOk : Str → Bool) (store : Store) :
    (∀ p, p ∈ cleanup_once cfg now deleteOk store → p ∈ store) ∧
    (∀ p, p ∈ store → p ∉ cleanup_once cfg now deleteOk store →
      fileAge now p.2 > (cfg.MAX_FILE_AGE : Int)) ∧
    cleanup_once cfg now (fun _ => true)
        (cleanup_once cfg now deleteOk store)
      = cleanup_once cfg now (fun _ => true) store := by
  refine ⟨?_, ?_, ?_⟩
  · intro p hp
    induction store with
    | nil => simp [cleanup_once] at hp
    | cons q rest ih =>
      obtain ⟨n, f⟩ := q
      rw [cleanup_once] at hp
      by_cases hage : fileAge now f > (cfg.MAX_FILE_AGE : Int)
      · rw [if_pos hage] at hp
        cases hok : deleteOk n with
        | true =>
          rw [hok, if_pos rfl] at hp
          exact List.mem_cons_of_mem _ (ih hp)
        | false =>
          rw [hok] at hp
          simpa using hp
      · rw [if_neg hage] at hp
        rcases List.mem_cons.mp hp with h | h
        · exact List.mem_cons.mpr (Or.inl h)
        · exact List.mem_cons_of_mem _ (ih h)
  · intro p hpin hpout
    induction store with
    | nil => cases hpin
    | cons q rest ih =>
      obtain ⟨n, f⟩ := q
      rw [cleanup_once] at hpout
      by_cases hage : fileAge now f > (cfg.MAX_FILE_AGE : Int)
      · rw [if_pos hage] at hpout
        cases hok : deleteOk n with
        | true =>
          rw [hok, if_pos rfl] at hpout
          rcases List.mem_cons.mp hpin with h | h
          · rw [h]
            exact hage
          · exact ih h hpout
        | false =>
          rw [hok] at hpout
          simp only [Bool.false_eq_true, if_false] at hpout
          exact absurd hpin hpout
      · rw [if_neg hage] at hpout
        rcases List.mem_cons.mp hpin with h | h
        · exact absurd (List.mem_cons.mpr (Or.inl h)) hpout
        · exact ih h fun hc => hpout (List.mem_cons_of_mem _ hc)
  · induction store with
    | nil => rfl
    | cons q rest ih =>
      obtain ⟨n, f⟩ := q
      by_cases hage : fileAge now f > (cfg.MAX_FILE_AGE : Int)
      · cases hok : deleteOk n with
        | true =>
          rw [cleanup_once, if_pos hage, hok, if_pos rfl, ih]
          rw [cleanup_once, if_pos hage, if_pos rfl]
        | false =>
          rw [cleanup_once, if_pos hage, hok]
          simp only [Bool.false_eq_true, if_false]
      · rw [cleanup_once, if_neg hage]
        rw [cleanup_once, if_neg hage]
        rw [cleanup_once, if_neg hage, ih]

/-- Witness for the amended C7: after the pass in which deleting `a.html`
fails, an error-free pass reaches the same state as an error-free sweep of
the original two-file store. -/
theorem cleanup_once_error_local_witness :
    cleanup_once ⟨86400, 600, 1048576, "csp", true, []⟩ 100000 (fun _ => true)
        (cleanup_once ⟨86400, 600, 1048576, "csp", true, []⟩ 100000
          (fun n => decide (n ≠ "a.html".toList))
          [("a.html".toList, ⟨[], 0⟩), ("b.html".toList, ⟨[], 0⟩)])
      = cleanup_once ⟨86400, 600, 1048576, "csp", true, []⟩ 100000
          (fun _ => true)
          [("a.html".toList, ⟨[], 0⟩), ("b.html".toList, ⟨[], 0⟩)] :=
  (cleanup_once_error_local ⟨86400, 600, 1048576, "csp", true, []⟩ 100000
    (fun n => decide (n ≠ "a.html".toList))
    [("a.html".toList, ⟨[], 0⟩), ("b.html".toList, ⟨[], 0⟩)]).2.2

/-- C8: an upload whose body exceeds the size limit yields 413 and leaves
the store unchanged, both when the declared `Content-Length` exceeds the
limit and when the declared length is absent or within the limit but the
actual UTF-8 byte length of the decoded body exceeds it. -/
theorem upload_size_limit (cfg : Config) (rand : Nat → Nat) (fuel : Nat)
    (render : Str → Option Bytes) (body : Str) (now : Nat) (store : Store) :
    (∀ cl, cl > cfg.MAX_CONTENT_LENGTH →
      upload_html cfg rand fuel render (some cl) body now store
        = some (.err 413 "Datei zu groß", store)) ∧
    (∀ contentLength : Option Nat,
      contentLength.getD 0 ≤ cfg.MAX_CONTENT_LENGTH →
      (utf8Encode body).length > cfg.MAX_CONTENT_LENGTH →
      upload_html cfg rand fuel render contentLength body now store
        = some (.err 413 "Datei zu groß", store)) := by
  constructor
  · intro cl hcl
    have hcl2 : (some cl).getD 0 > cfg.MAX_CONTENT_LENGTH := hcl
    rw [upload_html, if_pos hcl2]
  · intro cL hcl hlen
    have hne : body ≠ [] := by
      intro h
      rw [h] at hlen
      simp [utf8Encode] at hlen
    rw [upload_html, if_neg (Nat.not_lt.mpr hcl), if_neg hne, if_pos hlen]

/-- Witness for C8 with limit 2: declared length 3 is rejected, and an
honest 3-byte body with no declared length is rejected too, both leaving
the given one-file store untouched. -/
theorem upload_size_limit_witness :
    ((3 : Nat) > 2 ∧
      upload_html ⟨86400, 600, 2, "csp", true, []⟩ (fun _ => 0) 1
          (fun _ => none) (some 3) "abc".toList 0
          [("a.html".toList, ⟨[], 0⟩)]
        = some (.err 413 "Datei zu groß", [("a.html".toList, ⟨[], 0⟩)])) ∧
    ((none : Option Nat).getD 0 ≤ 2 ∧
      (utf8Encode "abc".toList).length > 2 ∧
      upload_html ⟨86400, 600, 2, "csp", true, []⟩ (fun _ => 0) 1
          (fun _ => none) none "abc".toList 0
          [("a.html".toList, ⟨[], 0⟩)]
        = some (.err 413 "Datei zu groß", [("a.html".toList, ⟨[], 0⟩)])) := by
  constructor
  · exact ⟨by decide, (upload_size_limit ⟨86400, 600, 2, "csp", true, []⟩
      (fun _ => 0) 1 (fun _ => none) "abc".toList 0
      [("a.html".toList, ⟨[], 0⟩)]).1 3 (by decide)⟩
  · exact ⟨by decide, by decide, (upload_size_limit ⟨86400, 600, 2, "csp", true, []⟩
      (fun _ => 0) 1 (fun _ => none) "abc".toList 0
      [("a.html".toList, ⟨[], 0⟩)]).2 none (by decide) (by decide)⟩

/-- C3: a non-empty body within the size limit (by declared and actual
length) uploads to a 200 outcome carrying an id, and an immediate fetch of
`<id>.html` from the updated store returns status 200 with exactly the
UTF-8 encoding of the supplied text as body — byte-identical round trip,
no transformation. -/
theorem upload_roundtrip (cfg : Config) (rand : Nat → Nat) (fuel : Nat)
    (render : Str → Option Bytes) (md5hex : Bytes → String)
    (contentLength : Option Nat) (body : Str) (now : Nat) (store : Store)
    (outcome : UploadOutcome) (store' : Store)
    (hbody : body ≠ [])
    (hcl : contentLength.getD 0 ≤ cfg.MAX_CONTENT_LENGTH)
    (hsize : (utf8Encode body).length ≤ cfg.MAX_CONTENT_LENGTH)
    (hup : upload_html cfg rand fuel render contentLength body now store
        = some (outcome, store')) :
    ∃ data : UploadData, outcome = .ok data ∧ outcome.status = 200 ∧
      (serve_file cfg md5hex store' none (data.id ++ ".html".toList)).status
          = 200 ∧
      (serve_file cfg md5hex store' none (data.id ++ ".html".toList)).body
          = .file (utf8Encode body) := by
  rw [upload_html, if_neg (Nat.not_lt.mpr hcl), if_neg hbody,
    if_neg (Nat.not_lt.mpr hsize)] at hup
  cases hpick : pickId store rand fuel 0 with
  | none =>
    rw [hpick] at hup
    simp at hup
  | some fid =>
    rw [hpick] at hup
    simp only [Option.some.injEq, Prod.mk.injEq] at hup
    obtain ⟨houtcome, hstore⟩ := hup
    subst houtcome
    obtain ⟨⟨j, hj⟩, -⟩ := pickId_spec hpick
    have hhex : ∀ c ∈ fid, c ∈ "0123456789abcdef".toList := by
      intro c hc
      rw [hj] at hc
      exact mem_candidateId hc
    have hval : invalid_filename (fid ++ ".html".toList) = false := by
      refine invalid_filename_id_ext hhex ?_ (by decide) (by decide)
      rw [endsWith_append]
      rfl
    have hlook : Store.lookupName store' (fid ++ ".html".toList)
        = some ⟨utf8Encode body, now⟩ := by
      rw [← hstore]
      cases hr : (if cfg.PDF_ENABLED = true then render body else none) with
      | none =>
        simp only [hr]
        exact lookupName_put_self _ _ _
      | some pdfBytes =>
        simp only [hr]
        rw [lookupName_put_ne _ _ _ _ (append_dotPdf_ne_dotHtml fid).symm]
        exact lookupName_put_self _ _ _
    have hvt : ¬(invalid_filename (fid ++ ".html".toList) = true) := by
      rw [hval]
      exact Bool.false_ne_true
    refine ⟨_, rfl, rfl, ?_, ?_⟩
    all_goals
      dsimp only
      unfold serve_file
      rw [if_neg hvt, hlook]
      rfl

/-- Witness for C3: uploading `"abc"` (declared length 3, limit 1 MiB) to
the empty store with a failing renderer, then fetching the resulting
`000000000000.html`. -/
theorem upload_roundtrip_witness :
    ("abc".toList ≠ ([] : Str) ∧
      (some 3 : Option Nat).getD 0 ≤ 1048576 ∧
      (utf8Encode "abc".toList).length ≤ 1048576 ∧
      upload_html ⟨86400, 600, 1048576, "csp", true, []⟩ (fun _ => 0) 1
          (fun _ => none) (some 3) "abc".toList 0 []
        = some (.ok ⟨true, "000000000000".toList, "000000000000.html".toList,
            "/files/000000000000.html".toList, none, none, some false⟩,
            [("000000000000.html".toList, ⟨[97, 98, 99], 0⟩)])) ∧
    ((UploadOutcome.ok ⟨true, "000000000000".toList,
          "000000000000.html".toList, "/files/000000000000.html".toList,
          none, none, some false⟩).status = 200 ∧
      (serve_file ⟨86400, 600, 1048576, "csp", true, []⟩ (fun _ => "h")
          [("000000000000.html".toList, ⟨[97, 98, 99], 0⟩)] none
          ("000000000000".toList ++ ".html".toList)).status = 200 ∧
      (serve_file ⟨86400, 600, 1048576, "csp", true, []⟩ (fun _ => "h")
          [("000000000000.html".toList, ⟨[97, 98, 99], 0⟩)] none
          ("000000000000".toList ++ ".html".toList)).body
        = .file (utf8Encode "abc".toList)) := by
  refine ⟨⟨by decide, by decide, by decide, by decide⟩, ?_⟩
  obtain ⟨data, hdata, hstatus, h200, hfile⟩ :=
    upload_roundtrip ⟨86400, 600, 1048576, "csp", true, []⟩ (fun _ => 0) 1
      (fun _ => none) (fun _ => "h") (some 3) "abc".toList 0 []
      (.ok ⟨true, "000000000000".toList, "000000000000.html".toList,
        "/files/000000000000.html".toList, none, none, some false⟩)
      [("000000000000.html".toList, ⟨[97, 98, 99], 0⟩)]
      (by decide) (by decide) (by decide) (by decide)
  injection hdata with hdata
  subst hdata
  exact ⟨hstatus, h200, hfile⟩

lemma statsLoop_eq (store : Store) (files : List (Str × String × Nat))
    (ts hc pc : Nat) :
    statsLoop store (files, ts, hc, pc) =
      (files ++ store.map (fun p => (p.1, fileTypeTag p.1, p.2.content.length)),
       ts + (store.map (fun p => p.2.content.length)).sum,
       hc + (store.map
          (fun p => if fileTypeTag p.1 = "html" then 1 else 0)).sum,
       pc + (store.map
          (fun p => if fileTypeTag p.1 = "pdf" then 1 else 0)).sum) := by
  induction store generalizing files ts hc pc with
  | nil => simp [statsLoop]
  | cons p rest ih =>
    obtain ⟨n, f⟩ := p
    rw [statsLoop, ih]
    simp [List.append_assoc, Nat.add_assoc]

lemma count_html_pdf (store : Store)
    (hclean : ∀ p ∈ store, endsWith p.1 ".html".toList = true ∨
      endsWith p.1 ".pdf".toList = true) :
    ((store.map (fun p => if fileTypeTag p.1 = "html" then 1 else 0)).sum : Nat)
        + (store.map (fun p => if fileTypeTag p.1 = "pdf" then 1 else 0)).sum
      = store.length := by
  induction store with
  | nil => rfl
  | cons p rest ih =>
    have hp := hclean p (List.mem_cons_self p rest)
    have hrest := fun q hq => hclean q (List.mem_cons_of_mem _ hq)
    simp only [List.map_cons, List.sum_cons, List.length_cons]
    rw [← ih hrest]
    have hab : (if fileTypeTag p.1 = "html" then (1 : Nat) else 0)
        + (if fileTypeTag p.1 = "pdf" then 1 else 0) = 1 := by
      rcases hp with h | h
      · rw [fileTypeTag, if_pos h]
        simp
      · have h2 : endsWith p.1 ".html".toList = false := by
          cases hx : endsWith p.1 ".html".toList
          · rfl
          · exact absurd ⟨hx, h⟩ (not_endsWith_html_and_pdf p.1)
        rw [fileTypeTag, h2]
        simp only [Bool.false_eq_true, if_false, if_pos h]
        simp
    omega

/-- C9 counterexample: `/stats` tags a file that ends in neither accepted
extension as `other`; it counts toward `total_files` but neither
`html_files` nor `pdf_files`, so on a store holding `readme.txt` the
claimed identity `html_files + pdf_files = total_files` fails. -/
theorem stats_totals_counterexample :
    (stats [("readme.txt".toList, ⟨[1, 2, 3], 0⟩)]).html_files
          + (stats [("readme.txt".toList, ⟨[1, 2, 3], 0⟩)]).pdf_files
        ≠ (stats [("readme.txt".toList, ⟨[1, 2, 3], 0⟩)]).total_files ∧
    (stats [("readme.txt".toList, ⟨[1, 2, 3], 0⟩)]).total_files = 1 := by
  constructor
  · decide
  · decide

/-- C9 (amended): for every store state whose enumerated files all end in
`.html` or `.pdf` — which includes every state the app's own writes
produce — the `/stats` reported total size equals the sum of the
individual sizes of the enumerated files, and `html_files + pdf_files`
equals `total_files`.  (A foreign file of any other extension counts
toward `total_files` only, breaking the count identity.) -/
theorem stats_totals (store : Store)
    (hclean : ∀ p ∈ store, endsWith p.1 ".html".toList = true ∨
      endsWith p.1 ".pdf".toList = true) :
    (stats store).total_size
        = ((stats store).files.map (fun e => e.2.2)).sum ∧
    (stats store).html_files + (stats store).pdf_files
        = (stats store).total_files := by
  unfold stats
  rw [statsLoop_eq]
  dsimp only
  constructor
  · simp only [List.nil_append, Nat.zero_add, List.map_map]
    rfl
  · simp only [List.nil_append, Nat.zero_add, List.length_map]
    exact count_html_pdf store hclean

/-- Witness for the amended C9 on a concrete two-file store. -/
theorem stats_totals_witness :
    (stats [("a.html".toList, ⟨[1], 0⟩), ("b.pdf".toList, ⟨[2, 3], 0⟩)]).total_size
        = ((stats [("a.html".toList, ⟨[1], 0⟩),
            ("b.pdf".toList, ⟨[2, 3], 0⟩)]).files.map (fun e => e.2.2)).sum ∧
    (stats [("a.html".toList, ⟨[1], 0⟩),
        ("b.pdf".toList, ⟨[2, 3], 0⟩)]).html_files
      + (stats [("a.html".toList, ⟨[1], 0⟩),
          ("b.pdf".toList, ⟨[2, 3], 0⟩)]).pdf_files
      = (stats [("a.html".toList, ⟨[1], 0⟩),
          ("b.pdf".toList, ⟨[2, 3], 0⟩)]).total_files :=
  stats_totals [("a.html".toList, ⟨[1], 0⟩), ("b.pdf".toList, ⟨[2, 3], 0⟩)]
    (by decide)

end HtmlToUrl
